import Mathlib

/-!
Verification of the request-routing and dispatch engine of the
hamza-backend-web-library-cpp repository.

Strings are modelled as lists of byte values (`List Nat`, each entry the
value of one `char` read as `unsigned char`).  The functions below are
shallow embeddings of the C++ sources:

* `url_encode`, `url_decode`, `sanitize_path`, `match_path` and their
  helpers embed `src/src/web_utilities.cpp`;
* the `Resp` operations embed the `web_response` wrapper of
  `src/includes/web_request.hpp` (second document, lines 353-676);
* `web_response_ctor` embeds the `web_response` constructor
  (`src/includes/web_request.hpp:445-448`);
* `on_request_received`, `requestHandlerRun` and the default
  unhandled-exception hook embed `src/unnamed/part_001` lines 464-623;
* `routeMatch`, `routeLoop`, `routerHandle`, `serverDispatch` embed
  `web_route::match`/`web_route::handle_request`
  (`src/includes/web_route.hpp`), `web_router::handle_request`
  (`src/includes/web_router.hpp:156-188`) and the router loop of
  `web_server::request_handler` (`src/unnamed/part_001:464-510`).

Fallible C++ code (a `std::stoi` call that may throw) is embedded as
`Option`: `none` means the exception escapes.
-/

namespace HamzaWeb

/-- Byte list of a Lean string literal (each char as its code point; all
    source literals involved are ASCII, so this is the byte string). -/
def strL (s : String) : List Nat := s.data.map Char.toNat

/-! ## URI / path utilities (src/src/web_utilities.cpp) -/

/-- `isalnum` (C locale) on a byte: decimal digits, upper, lower letters. -/
def isalnumC (b : Nat) : Bool :=
  decide ((48 ≤ b ∧ b ≤ 57) ∨ (65 ≤ b ∧ b ≤ 90) ∨ (97 ≤ b ∧ b ≤ 122))

/-- The pass-through test of `url_encode`
    (`isalnum(c) || c == '-' || c == '_' || c == '.' || c == '~'`). -/
def isUnreserved (b : Nat) : Bool :=
  isalnumC b || decide (b = 45) || decide (b = 95) || decide (b = 46) || decide (b = 126)

/-- One uppercase hex digit, as emitted by
    `std::uppercase << std::hex` for a value below 16. -/
def hexUpper (n : Nat) : Nat := if n < 10 then 48 + n else 55 + n

/-- `url_encode` (web_utilities.cpp:21-39): unreserved bytes pass through,
    every other byte becomes `%HH` with uppercase hex of its 8-bit value. -/
def url_encode : List Nat → List Nat
  | [] => []
  | b :: rest =>
    (if isUnreserved b then [b] else [37, hexUpper (b / 16), hexUpper (b % 16)])
      ++ url_encode rest

/-- `isspace` (C locale) on a byte, as used by `std::stoi`. -/
def isSpaceC (b : Nat) : Bool := decide (b = 32 ∨ (9 ≤ b ∧ b ≤ 13))

/-- Value of one hex digit character, `none` if the byte is not a hex digit. -/
def hexVal (c : Nat) : Option Nat :=
  if 48 ≤ c ∧ c ≤ 57 then some (c - 48)
  else if 65 ≤ c ∧ c ≤ 70 then some (c - 55)
  else if 97 ≤ c ∧ c ≤ 102 then some (c - 87)
  else none

/-- Greedy hex-digit accumulation of `strtol`: consume hex digits,
    stop at the first non-digit. -/
def takeHexVal : List Nat → Nat → Nat
  | [], acc => acc
  | c :: t, acc =>
    match hexVal c with
    | some v => takeHexVal t (16 * acc + v)
    | none => acc

/-- Digit scan of `strtol(s, 16)` after sign processing: an optional
    `0x`/`0X` prefix (consumed only when a hex digit follows, otherwise
    just the `0` is parsed), then at least one hex digit; `none` models
    the `std::invalid_argument` that `std::stoi` raises when no digit
    is consumed. -/
def stoiCore (sg : Int) : List Nat → Option Int
  | [] => none
  | c :: t =>
    if c = 48 then
      match t with
      | x :: t2 =>
        if x = 120 ∨ x = 88 then
          if (t2.head?.bind hexVal).isSome then some (sg * takeHexVal t2 0)
          else some (sg * takeHexVal [] 0)
        else some (sg * takeHexVal t 0)
      | [] => some (sg * takeHexVal [] 0)
    else
      match hexVal c with
      | some v => some (sg * takeHexVal t v)
      | none => none

/-- Sign processing of `strtol`, after whitespace skipping. -/
def stoiSign : List Nat → Option Int
  | [] => none
  | c :: t =>
    if c = 43 then stoiCore 1 t
    else if c = 45 then stoiCore (-1) t
    else stoiCore 1 (c :: t)

/-- `std::stoi(s, nullptr, 16)`: skip leading whitespace, optional sign,
    then parse hex digits; `none` models the `std::invalid_argument`
    exception.  (Two-character inputs, as produced by `url_decode`,
    can never overflow `int`.) -/
def stoi16 (l : List Nat) : Option Int :=
  stoiSign (l.dropWhile isSpaceC)

/-- `url_decode` (web_utilities.cpp:46-67).  A `%` followed by at least two
    characters converts those two via `std::stoi(.,16)` (the resulting
    `int` is cast to `char`, i.e. reduced mod 256); a `%` with fewer than
    two following characters is dropped; other bytes are copied.
    `none` models the `std::stoi` exception escaping. -/
def url_decode : List Nat → Option (List Nat)
  | [] => some []
  | 37 :: h1 :: h2 :: rest2 =>
    (match stoi16 [h1, h2] with
     | none => none
     | some v => (url_decode rest2).map (fun d => (v.emod 256).toNat :: d))
  | 37 :: rest => url_decode rest
  | c :: rest => (url_decode rest).map (fun d => c :: d)

/-! ### sanitize_path (web_utilities.cpp:260-271) -/

/-- Does the byte list contain the two-byte sequence `..` (46, 46)? -/
def hasDots : List Nat → Bool
  | c1 :: c2 :: rest => (decide (c1 = 46) && decide (c2 = 46)) || hasDots (c2 :: rest)
  | _ => false

/-- One `sanitized.find("..")` / `sanitized.erase(pos, 2)` step: remove the
    first occurrence of `..`, `none` when there is none. -/
def eraseFirstDots : List Nat → Option (List Nat)
  | [] => none
  | c :: rest =>
    if c = 46 then
      match rest with
      | c2 :: rest2 =>
        if c2 = 46 then some rest2
        else (eraseFirstDots rest).map (fun l => c :: l)
      | [] => none
    else (eraseFirstDots rest).map (fun l => c :: l)

/-- The `while (find("..") != npos) erase` loop, with an explicit fuel
    argument to make the recursion structural; each erase removes two
    bytes, so `l.length` rounds of fuel always reach the fixpoint. -/
def sanitize_go : Nat → List Nat → List Nat
  | 0, l => l
  | fuel + 1, l =>
    match eraseFirstDots l with
    | none => l
    | some l2 => sanitize_go fuel l2

/-- `sanitize_path` (web_utilities.cpp:260-271): repeatedly delete the
    first occurrence of `..` until none remains. -/
def sanitize_path (l : List Nat) : List Nat := sanitize_go l.length l

/-! ### match_path (web_utilities.cpp:373-491) -/

/-- The `end` cursor loop of `normalize`: decrement `end` while
    `end > start + 1` and the byte before `end` is a slash. -/
def normEnd (s : List Nat) (start : Nat) : Nat → Nat
  | 0 => 0
  | e + 1 =>
    if e + 1 > start + 1 ∧ s.get? e = some 47 then normEnd s start e
    else e + 1

/-- The `normalize` lambda of `match_path`: keep `""` and `"/"` as they
    are, otherwise drop all leading slashes and trailing slashes (keeping
    at least the byte at the `start` cursor). -/
def normalize (s : List Nat) : List Nat :=
  if s = [] then []
  else if s = [47] then [47]
  else
    let start := (s.takeWhile (fun c => c == 47)).length
    let e := normEnd s start s.length
    if start ≥ e then [] else (s.drop start).take (e - start)

/-- The `split_segments` lambda of `match_path`: split on `/`; a trailing
    slash produces no trailing empty segment (the scan stops at `pos ==
    size`), while interior double slashes do produce empty segments. -/
def split47 : List Nat → List (List Nat)
  | [] => []
  | 47 :: rest => [] :: split47 rest
  | c :: rest =>
    match split47 rest with
    | [] => [[c]]
    | seg :: segs => (c :: seg) :: segs

/-- The wildcard remainder accumulation: `remainder += '/'` only when the
    accumulator is nonempty, then append the segment. -/
def joinSlash (segs : List (List Nat)) : List Nat :=
  segs.foldl (fun acc seg => if acc = [] then seg else acc ++ 47 :: seg) []

/-- The lock-step segment loop of `match_path` (web_utilities.cpp:433-490)
    together with its leftover-segment epilogue.  `acc` is the
    `path_params` accumulator; `none` models a `url_decode` exception
    escaping. -/
def matchSegs : List (List Nat) → List (List Nat) → List (List Nat × List Nat) →
    Option (Bool × List (List Nat × List Nat))
  | es :: etl, ps :: ptl, acc =>
    if es = [42] then
      let remainder := joinSlash (ps :: ptl)
      if remainder = [] then some (true, acc)
      else
        match url_decode remainder with
        | none => none
        | some d => some (true, acc ++ [([42], d)])
    else if es.head? = some 58 then
      match url_decode ps with
      | none => none
      | some d => matchSegs etl ptl (acc ++ [(es.tail, d)])
    else if es = ps then matchSegs etl ptl acc
    else some (false, [])
  | es :: etl, [], acc =>
    if etl = [] ∧ es = [42] then some (true, acc) else some (false, [])
  | [], _ :: _, _ => some (false, [])
  | [], [], acc => some (true, acc)

/-- `match_path` (web_utilities.cpp:373-491): exact-equality fast path,
    then normalize both sides, split into segments and run the lock-step
    loop.  Result: match flag plus captured `(name, value)` pairs;
    `none` models a `url_decode` exception escaping. -/
def match_path (expression path : List Nat) :
    Option (Bool × List (List Nat × List Nat)) :=
  if path = expression then some (true, [])
  else
    let expr := normalize expression
    let p := normalize path
    if expr = [] ∧ p = [] then some (true, [])
    else matchSegs (split47 expr) (split47 p) []

/-! ## Response wrapper (web_response, src/includes/web_request.hpp:353-676)

The wrapper buffers status/headers/body and guards the transport `send`
and `end` primitives behind the `did_send` / `did_end` latches.  The
fields `sends` / `ends` count the transport invocations
(`response.send()` / `response.end()` on the wrapped object), and
`sent_status` / `sent_body` snapshot the buffered status line and body at
the moment of the transport send: they are the observation points of the
theorems, not program state. -/

structure Resp where
  status_code : Int
  status_message : List Nat
  body : List Nat
  headers : List (List Nat × List Nat)
  did_send : Bool
  did_end : Bool
  sends : Nat
  ends : Nat
  sent_status : Option (Int × List Nat)
  sent_body : Option (List Nat)
deriving DecidableEq

/-- Header-name constants of the underlying HTTP library (opaque tokens). -/
def hdrConnection : List Nat := strL ("Connection")

/-- See `hdrConnection`. -/
def hdrContentLength : List Nat := strL ("Content-Length")

/-- See `hdrConnection`. -/
def hdrContentType : List Nat := strL ("Content-Type")

/-- `std::to_string` of a `size_t`: decimal digit bytes (fuel `n + 1`
    bounds the digit count). -/
def toDecimalGo : Nat → Nat → List Nat
  | 0, _ => []
  | fuel + 1, n => if n < 10 then [48 + n] else toDecimalGo fuel (n / 10) ++ [48 + n % 10]

/-- See `toDecimalGo`. -/
def toDecimal (n : Nat) : List Nat := toDecimalGo (n + 1) n

/-- `web_response::set_status` (web_request.hpp:468-472). -/
def set_status (r : Resp) (c : Int) (m : List Nat) : Resp :=
  { r with status_code := c, status_message := m }

/-- `web_response::set_body` (web_request.hpp:619-623). -/
def set_body (r : Resp) (b : List Nat) : Resp := { r with body := b }

/-- `http_response::add_header` as used by the wrapper: append the pair. -/
def add_header (r : Resp) (k v : List Nat) : Resp :=
  { r with headers := r.headers ++ [(k, v)] }

/-- `http_response::get_header`: all values stored under the name. -/
def get_header (r : Resp) (k : List Nat) : List (List Nat) :=
  (r.headers.filter (fun kv => kv.1 == k)).map (fun kv => kv.2)

/-- The `Connection: close` defaulting step inside `send`
    (web_request.hpp:654-657). -/
def withConnClose (r : Resp) : Resp :=
  if get_header r hdrConnection = [] then add_header r hdrConnection (strL ("close")) else r

/-- The `Content-Length` defaulting step inside `send`
    (web_request.hpp:658-661). -/
def withContentLength (r : Resp) : Resp :=
  if get_header r hdrContentLength = [] then
    add_header r hdrContentLength (toDecimal r.body.length)
  else r

/-- `web_response::send` (web_request.hpp:642-674): if the `did_send`
    latch was already set, return immediately; otherwise set it, default
    the `Connection` and `Content-Length` headers when absent, and invoke
    the transport send (counted in `sends`, snapshotting the wire data). -/
def send (r : Resp) : Resp :=
  if r.did_send then r
  else
    { withContentLength (withConnClose r) with
      did_send := true,
      sends := (withContentLength (withConnClose r)).sends + 1,
      sent_status := some ((withContentLength (withConnClose r)).status_code,
                           (withContentLength (withConnClose r)).status_message),
      sent_body := some (withContentLength (withConnClose r)).body }

/-- `web_response::end` (web_request.hpp:412-430): if the `did_end` latch
    was already set, return immediately; otherwise set it and invoke the
    transport end (counted in `ends`). -/
def end_ (r : Resp) : Resp :=
  if r.did_end then r else { r with did_end := true, ends := r.ends + 1 }

/-- `web_response::send_text` (web_request.hpp:523-532): set
    `Content-Type: text/plain`, body, `Content-Length`, then `send()`. -/
def send_text (r : Resp) (t : List Nat) : Resp :=
  send (add_header (set_body (add_header r hdrContentType (strL ("text/plain"))) t)
    hdrContentLength (toDecimal t.length))

/-- `web_response::send_json` (web_request.hpp:483-492). -/
def send_json (r : Resp) (t : List Nat) : Resp :=
  send (add_header (set_body (add_header r hdrContentType (strL ("application/json"))) t)
    hdrContentLength (toDecimal t.length))

/-- `web_response::send_html` (web_request.hpp:503-512). -/
def send_html (r : Resp) (t : List Nat) : Resp :=
  send (add_header (set_body (add_header r hdrContentType (strL ("text/html"))) t)
    hdrContentLength (toDecimal t.length))

/-- A fresh wrapper state around a transport response whose buffered
    status is `(c, m)`: latches unset, no transport call made yet. -/
def freshResp (c : Int) (m : List Nat) : Resp :=
  { status_code := c, status_message := m, body := [], headers := [],
    did_send := false, did_end := false, sends := 0, ends := 0,
    sent_status := none, sent_body := none }

/-- The transport-owned `http_response` as far as the wrapper constructor
    observes it: a buffered status line. -/
structure http_response where
  status_code : Int
  status_message : List Nat
deriving DecidableEq

/-- The `web_response` constructor (web_request.hpp:445-448):
    `web_response(http_response &&response) : response(std::move(response))
    { response.set_status(200, "OK"); }`.  The member is move-initialized
    from the parameter; in the body the name `response` resolves to the
    constructor *parameter* (which shadows the member), so the
    `set_status(200, "OK")` call mutates the moved-from parameter and the
    member keeps the transport object's status line. -/
def web_response_ctor (response : http_response) : Resp :=
  let member := response
  -- ctor body: `response.set_status(200, "OK")` hits the shadowing parameter
  let _param := { response with status_code := (200 : Int), status_message := strL ("OK") }
  freshResp member.status_code member.status_message

/-! ## Response operations as an opaque call trace

`ROp` enumerates the public mutating calls a handler can make on the
wrapper; `applyOp`/`run` replay a call sequence.  This models the claim
"regardless of how many times handlers call send / end". -/

inductive ROp
  | setStatus (c : Int) (m : List Nat)
  | setBody (b : List Nat)
  | addHeader (k v : List Nat)
  | sendText (t : List Nat)
  | sendJson (t : List Nat)
  | sendHtml (t : List Nat)
  | send
  | endr
deriving DecidableEq

/-- Replay one wrapper call. -/
def applyOp (r : Resp) : ROp → Resp
  | .setStatus c m => set_status r c m
  | .setBody b => set_body r b
  | .addHeader k v => add_header r k v
  | .sendText t => send_text r t
  | .sendJson t => send_json r t
  | .sendHtml t => send_html r t
  | .send => send r
  | .endr => end_ r

/-- Replay a wrapper call sequence. -/
def run (r : Resp) (ops : List ROp) : Resp := ops.foldl applyOp r

/-! ## Server dispatch glue (src/unnamed/part_001) -/

/-- The HTTP error value `web_exception`
    (src/includes/web_exceptions.hpp). -/
structure WebExc where
  message : List Nat
  etype : List Nat
  origin : List Nat
  status_code : Int
  status_message : List Nat
deriving DecidableEq

/-- The `web_exception` that `request_handler`'s catch block constructs
    (src/unnamed/part_001:498-503): always a fresh 500. -/
def mk500 : WebExc :=
  { message := strL ("Error in request handler thread"),
    etype := strL ("INTERNAL_ERROR"),
    origin := strL ("request_handler"),
    status_code := 500,
    status_message := strL ("Internal Server Error") }

/-- Default `web_server::on_unhandled_exception`
    (src/unnamed/part_001:612-623, no user callback registered):
    set the status from the error value, `send_text("Internal Server
    Error")`, log, `end()`. -/
def on_unhandled_exception (r : Resp) (e : WebExc) : Resp :=
  end_ (send_text (set_status r e.status_code e.status_message)
    (strL ("Internal Server Error")))

/-- Outcome of the body of `request_handler`'s `try` block as far as the
    response is concerned: the sequence of wrapper calls performed, and
    whether an exception escaped (carrying the thrown HTTP error value). -/
inductive HandlerOutcome
  | completes (ops : List ROp)
  | throwsExc (e : WebExc) (ops : List ROp)
deriving DecidableEq

/-- `web_server::request_handler` (src/unnamed/part_001:464-510).
    Normal path: the `try` block's wrapper calls, then `res->send();
    res->end()` (lines 491-492), then the unconditional `res->send();
    res->end()` after the catch (lines 508-509).  Exception path: the
    calls made before the throw, then the catch block builds a fresh 500
    `web_exception` (regardless of the caught exception) and passes it to
    `on_unhandled_exception`, then lines 508-509 run.  The second
    component records the error values handed to the hook. -/
def requestHandlerRun (ho : HandlerOutcome) (r : Resp) : Resp × List WebExc :=
  match ho with
  | .completes ops =>
    let r1 := run r ops
    let r2 := end_ (send r1)
    (end_ (send r2), [])
  | .throwsExc _e ops =>
    let r1 := run r ops
    let exp := mk500
    let r2 := on_unhandled_exception r1 exp
    (end_ (send r2), [exp])

/-- Modelled from the spec: the implementation of `unknown_method` is not
    under src (only its declaration, src/unnamed/part_004:138, and its
    documentation are); spec section 4.1: the set of recognized methods
    is GET, POST, PUT, DELETE, PATCH, HEAD, OPTIONS, anything else is
    unknown. -/
def unknown_method (m : List Nat) : Bool :=
  !(decide (m = strL ("GET")) || decide (m = strL ("POST")) || decide (m = strL ("PUT")) ||
    decide (m = strL ("DELETE")) || decide (m = strL ("PATCH")) || decide (m = strL ("HEAD")) ||
    decide (m = strL ("OPTIONS")))

/-- `web_server::on_request_received` (src/unnamed/part_001:521-575) with
    the enqueue succeeding (the normal case): for an unknown method, set
    405 "Method Not Allowed", `send_text("405 Method Not Allowed")`,
    `end()`, and return without enqueueing; otherwise enqueue
    `request_handler` (second component: was the task enqueued?). -/
def on_request_received (method : List Nat) (r : Resp) : Resp × Bool :=
  if unknown_method method then
    (end_ (send_text (set_status r 405 (strL ("Method Not Allowed")))
      (strL ("405 Method Not Allowed"))), false)
  else (r, true)

/-! ## Routing (web_route.hpp, web_router.hpp, part_001 router loop) -/

/-- A registered route: its HTTP method string and path expression, plus
    an identifier `rid` so event logs can name it (registration order is
    the list order). -/
structure Route where
  rid : Nat
  method : List Nat
  expr : List Nat
deriving DecidableEq

/-- A dispatched request, as the routing layer reads it: method and
    query-stripped path. -/
structure WebRequest where
  method : List Nat
  path : List Nat
deriving DecidableEq

/-- Observable routing events: `wrote i ps` is `request->set_path_params(ps)`
    performed by route `i`; `handled i` is `route->handle_request` invoked
    on route `i`. -/
inductive REvent
  | wrote (rid : Nat) (params : List (List Nat × List Nat))
  | handled (rid : Nat)
deriving DecidableEq

/-- `web_route::match` (web_route.hpp:126-134): run `match_path` on
    expression vs. path; when the path matched, call `set_path_params`
    with the captures (recorded as a `wrote` event); return
    `method == request->get_method() && matched`.
    `none` models a `url_decode` exception escaping `match_path`. -/
def routeMatch (r : Route) (req : WebRequest) : Option (Bool × List REvent) :=
  match match_path r.expr req.path with
  | none => none
  | some (matched, params) =>
    some ((decide (r.method = req.method)) && matched,
          if matched then [REvent.wrote r.rid params] else [])

/-- The route loop of `web_router::handle_request`
    (web_router.hpp:166-175): first route whose `match` returns true gets
    `handle_request` and the router reports handled; no match reports
    not handled. -/
def routeLoop : List Route → WebRequest → Option (List REvent × Bool)
  | [], _ => some ([], false)
  | r :: rest, req =>
    match routeMatch r req with
    | none => none
    | some (isM, evs) =>
      if isM then some (evs ++ [REvent.handled r.rid], true)
      else
        match routeLoop rest req with
        | none => none
        | some (evs2, b) => some (evs ++ evs2, b)

/-- Middleware flow codes (`exit_code`, web_types). -/
inductive Code
  | CONTINUE
  | EXIT
  | ERROR
deriving DecidableEq

/-- `web_router::middleware_handle_request` (web_router.hpp:80-106) over
    the codes the middleware return: first non-CONTINUE code wins. -/
def middlewareResult : List Code → Code
  | [] => .CONTINUE
  | c :: rest =>
    match c with
    | .CONTINUE => middlewareResult rest
    | x => x

/-- A registered router: its middleware chain (abstracted by the codes
    the middleware return) and its routes, in registration order. -/
structure Router where
  mids : List Code
  routes : List Route
deriving DecidableEq

/-- `web_router::handle_request` (web_router.hpp:156-188): middleware
    first; a non-CONTINUE middleware result reports handled without
    touching the routes; otherwise run the route loop. -/
def routerHandle (rt : Router) (req : WebRequest) : Option (List REvent × Bool) :=
  match middlewareResult rt.mids with
  | Code.CONTINUE => routeLoop rt.routes req
  | _ => some ([], true)

/-- The router loop of `web_server::request_handler`
    (src/unnamed/part_001:477-486): routers in registration order, stop
    at the first that reports handled. -/
def serverDispatch : List Router → WebRequest → Option (List REvent × Bool)
  | [], _ => some ([], false)
  | rt :: rest, req =>
    match routerHandle rt req with
    | none => none
    | some (evs, true) => some (evs, true)
    | some (evs, false) =>
      match serverDispatch rest req with
      | none => none
      | some (evs2, b) => some (evs ++ evs2, b)

/-- Does `web_route::match` return true for this route on this request
    (recomputed as a pure predicate)? -/
def matchesB (req : WebRequest) (r : Route) : Bool :=
  match match_path r.expr req.path with
  | some (true, _) => decide (r.method = req.method)
  | _ => false

/-- The captures `match_path` produces for this route on this request
    (empty when it would throw). -/
def capturesOf (r : Route) (req : WebRequest) : List (List Nat × List Nat) :=
  match match_path r.expr req.path with
  | some (_, ps) => ps
  | none => []

/-- The routes on which `handle_request` was invoked, in order. -/
def handledIds (evs : List REvent) : List Nat :=
  evs.filterMap (fun e => match e with | .handled i => some i | _ => none)

/-- The `set_path_params` calls performed, in order: (route, params). -/
def writesOf (evs : List REvent) : List (Nat × List (List Nat × List Nat)) :=
  evs.filterMap (fun e => match e with | .wrote i ps => some (i, ps) | _ => none)

/-! ## Latch invariants of the response wrapper -/

/-- The wrapper has performed exactly one transport send iff the
    `did_send` latch is set, and likewise for end: the state every
    response reachable from a fresh one satisfies. -/
def latchInv (r : Resp) : Prop :=
  r.sends = (if r.did_send then 1 else 0) ∧ r.ends = (if r.did_end then 1 else 0)

lemma latchInv_fresh (c : Int) (m : List Nat) : latchInv (freshResp c m) := by
  simp [latchInv, freshResp]

lemma withConnClose_latch (r : Resp) :
    (withConnClose r).did_send = r.did_send ∧ (withConnClose r).did_end = r.did_end ∧
    (withConnClose r).sends = r.sends ∧ (withConnClose r).ends = r.ends := by
  unfold withConnClose
  split_ifs <;> simp [add_header]

lemma withContentLength_latch (r : Resp) :
    (withContentLength r).did_send = r.did_send ∧ (withContentLength r).did_end = r.did_end ∧
    (withContentLength r).sends = r.sends ∧ (withContentLength r).ends = r.ends := by
  unfold withContentLength
  split_ifs <;> simp [add_header]

lemma send_did_send (r : Resp) : (send r).did_send = true := by
  unfold send
  split_ifs with h <;> simp_all

lemma send_did_end (r : Resp) : (send r).did_end = r.did_end := by
  unfold send
  split_ifs with h
  · rfl
  · show (withContentLength (withConnClose r)).did_end = r.did_end
    rw [(withContentLength_latch _).2.1, (withConnClose_latch _).2.1]

lemma send_sends (r : Resp) :
    (send r).sends = r.sends + (if r.did_send then 0 else 1) := by
  unfold send
  split_ifs with h
  · simp
  · show (withContentLength (withConnClose r)).sends + 1 = r.sends + 1
    rw [(withContentLength_latch _).2.2.1, (withConnClose_latch _).2.2.1]

lemma send_ends (r : Resp) : (send r).ends = r.ends := by
  unfold send
  split_ifs with h
  · rfl
  · show (withContentLength (withConnClose r)).ends = r.ends
    rw [(withContentLength_latch _).2.2.2, (withConnClose_latch _).2.2.2]

lemma end_did_end (r : Resp) : (end_ r).did_end = true := by
  unfold end_
  split <;> simp_all

lemma end_did_send (r : Resp) : (end_ r).did_send = r.did_send := by
  unfold end_
  split <;> rfl

lemma end_ends (r : Resp) :
    (end_ r).ends = r.ends + (if r.did_end then 0 else 1) := by
  unfold end_
  split <;> simp_all

lemma end_sends (r : Resp) : (end_ r).sends = r.sends := by
  unfold end_
  split <;> rfl

lemma latchInv_send (r : Resp) (h : latchInv r) : latchInv (send r) := by
  obtain ⟨h1, h2⟩ := h
  refine ⟨?_, ?_⟩
  · rw [send_sends, send_did_send, h1]
    by_cases hb : r.did_send <;> simp [hb]
  · rw [send_ends, send_did_end, h2]

lemma latchInv_end (r : Resp) (h : latchInv r) : latchInv (end_ r) := by
  obtain ⟨h1, h2⟩ := h
  refine ⟨?_, ?_⟩
  · rw [end_sends, end_did_send, h1]
  · rw [end_ends, end_did_end, h2]
    by_cases hb : r.did_end <;> simp [hb]

/-- The header/body preparation of the typed senders leaves the latch
    fields untouched. -/
lemma latchInv_congr (r r' : Resp) (hs : r'.sends = r.sends) (he : r'.ends = r.ends)
    (hds : r'.did_send = r.did_send) (hde : r'.did_end = r.did_end)
    (h : latchInv r) : latchInv r' := by
  unfold latchInv at h ⊢
  rw [hs, he, hds, hde]
  exact h

lemma latchInv_send_text (r : Resp) (t : List Nat) (h : latchInv r) :
    latchInv (send_text r t) := by
  unfold send_text
  exact latchInv_send _ (latchInv_congr r _ rfl rfl rfl rfl h)

lemma latchInv_send_json (r : Resp) (t : List Nat) (h : latchInv r) :
    latchInv (send_json r t) := by
  unfold send_json
  exact latchInv_send _ (latchInv_congr r _ rfl rfl rfl rfl h)

lemma latchInv_send_html (r : Resp) (t : List Nat) (h : latchInv r) :
    latchInv (send_html r t) := by
  unfold send_html
  exact latchInv_send _ (latchInv_congr r _ rfl rfl rfl rfl h)

lemma latchInv_applyOp (r : Resp) (o : ROp) (h : latchInv r) :
    latchInv (applyOp r o) := by
  cases o with
  | setStatus c m => exact latchInv_congr r _ rfl rfl rfl rfl h
  | setBody b => exact latchInv_congr r _ rfl rfl rfl rfl h
  | addHeader k v => exact latchInv_congr r _ rfl rfl rfl rfl h
  | sendText t => exact latchInv_send_text r t h
  | sendJson t => exact latchInv_send_json r t h
  | sendHtml t => exact latchInv_send_html r t h
  | send => exact latchInv_send r h
  | endr => exact latchInv_end r h

lemma latchInv_run (ops : List ROp) (r : Resp) (h : latchInv r) :
    latchInv (run r ops) := by
  induction ops generalizing r with
  | nil => exact h
  | cons o ops ih => exact ih (applyOp r o) (latchInv_applyOp r o h)

lemma on_unhandled_exception_latchInv (r : Resp) (e : WebExc) (h : latchInv r) :
    latchInv (on_unhandled_exception r e) := by
  unfold on_unhandled_exception
  exact latchInv_end _ (latchInv_send_text _ _ (latchInv_congr r _ rfl rfl rfl rfl h))

/-- C1: for every request accepted by `on_request_received` with a
    recognized method (hence dispatched to `request_handler`), the
    transport send is performed exactly once and the transport end is
    performed exactly once on its response — whatever wrapper calls the
    handlers make, and on both the normal and the exception path of the
    dispatcher — because the first `send`/`end` flips the `did_send` /
    `did_end` latch and every later call returns immediately. -/
theorem C1_send_end_exactly_once (ho : HandlerOutcome) (c : Int) (m : List Nat) :
    (requestHandlerRun ho (freshResp c m)).1.sends = 1 ∧
    (requestHandlerRun ho (freshResp c m)).1.ends = 1 := by
  have key : ∀ r : Resp, latchInv r → (end_ (send r)).sends = 1 ∧ (end_ (send r)).ends = 1 := by
    intro r hr
    have h2 := latchInv_end _ (latchInv_send r hr)
    obtain ⟨hs, he⟩ := h2
    rw [end_did_send, send_did_send] at hs
    rw [end_did_end] at he
    simp only [if_true] at hs he
    exact ⟨hs, he⟩
  cases ho with
  | completes ops =>
    have h1 := latchInv_run ops (freshResp c m) (latchInv_fresh c m)
    have h2 := latchInv_end _ (latchInv_send _ h1)
    exact key _ h2
  | throwsExc e ops =>
    have h1 := latchInv_run ops (freshResp c m) (latchInv_fresh c m)
    have h2 := on_unhandled_exception_latchInv _ mk500 h1
    exact key _ h2

/-- C3: the `web_response` constructor never applies 200/"OK" to the
    wrapped member response — the `set_status(200, "OK")` in the
    constructor body resolves to the shadowing constructor parameter —
    so a member that arrives with status 0/"" keeps status 0/"". -/
theorem C3_ctor_leaves_member_status :
    (web_response_ctor ⟨0, []⟩).status_code = 0 ∧
    (web_response_ctor ⟨0, []⟩).status_message = [] ∧
    decide ((0 : Int) = 200) = false := by decide

/-- C4 counterexample: a handler throws an HTTP error value with status
    404 "Not Found"; the catch in `request_handler` nevertheless hands
    the hook the freshly built 500 error value, and the wire carries
    status 500, not 404. -/
theorem C4_counterexample :
    (requestHandlerRun
      (.throwsExc ⟨strL ("boom"), strL ("T"), strL ("F"), 404, strL ("Not Found")⟩ [])
      (freshResp 0 [])).2 = [mk500] ∧
    mk500.status_code = 500 ∧
    (requestHandlerRun
      (.throwsExc ⟨strL ("boom"), strL ("T"), strL ("F"), 404, strL ("Not Found")⟩ [])
      (freshResp 0 [])).1.sent_status = some (500, strL ("Internal Server Error")) ∧
    decide ((500 : Int) = 404) = false := by decide

/-- C4 (amended): whatever HTTP error value a handler or middleware
    throws, the catch in `request_handler` builds a fresh 500 "Internal
    Server Error" value and passes that to the unhandled-exception hook;
    the default hook sets the response status from it, so (when nothing
    was sent before the throw) the client sees status 500. -/
theorem C4_catch_builds_fresh_500 (e : WebExc) (c : Int) (m : List Nat) :
    (requestHandlerRun (.throwsExc e []) (freshResp c m)).2 = [mk500] ∧
    (requestHandlerRun (.throwsExc e []) (freshResp c m)).1.sent_status
      = some (500, strL ("Internal Server Error")) := by
  constructor
  · rfl
  · rfl

/-- C5: `on_request_received` enqueues `request_handler` exactly for
    recognized methods; for any unknown method it instead sets status 405
    "Method Not Allowed", sends body "405 Method Not Allowed", ends the
    response, and returns without enqueueing; for a recognized method the
    response is untouched on the transport thread. -/
theorem C5_unknown_method_405 (m : List Nat) (c : Int) (msg : List Nat) :
    ((on_request_received m (freshResp c msg)).2 = !(unknown_method m)) ∧
    (unknown_method m = true →
      (on_request_received m (freshResp c msg)).1.sent_status
          = some (405, strL ("Method Not Allowed")) ∧
      (on_request_received m (freshResp c msg)).1.sent_body
          = some (strL ("405 Method Not Allowed")) ∧
      (on_request_received m (freshResp c msg)).1.did_end = true ∧
      (on_request_received m (freshResp c msg)).1.sends = 1 ∧
      (on_request_received m (freshResp c msg)).1.ends = 1) ∧
    (unknown_method m = false →
      (on_request_received m (freshResp c msg)).1 = freshResp c msg) := by
  by_cases h : unknown_method m = true
  · refine ⟨?_, ?_, ?_⟩
    · simp [on_request_received, h]
    · intro _
      simp only [on_request_received, h, if_true]
      refine ⟨rfl, rfl, rfl, rfl, rfl⟩
    · intro hfalse
      rw [hfalse] at h
      exact absurd h (by decide)
  · have hf : unknown_method m = false := by
      cases hx : unknown_method m
      · rfl
      · exact absurd hx h
    refine ⟨?_, ?_, ?_⟩
    · simp [on_request_received, hf]
    · intro htrue
      rw [htrue] at hf
      exact absurd hf (by simp)
    · intro _
      simp [on_request_received, hf]

/-- C5 witness: the unrecognized method "BREW" takes the 405 path and is
    not enqueued; the recognized method "GET" is enqueued untouched. -/
theorem C5_unknown_method_405_witness :
    unknown_method (strL ("BREW")) = true ∧
    (on_request_received (strL ("BREW")) (freshResp 0 [])).1.sent_status
        = some (405, strL ("Method Not Allowed")) ∧
    (on_request_received (strL ("BREW")) (freshResp 0 [])).2 = false ∧
    unknown_method (strL ("GET")) = false ∧
    (on_request_received (strL ("GET")) (freshResp 0 [])).1 = freshResp 0 [] := by
  have h1 := (C5_unknown_method_405 (strL ("BREW")) 0 []).2.1 (by decide)
  have h2 := (C5_unknown_method_405 (strL ("BREW")) 0 []).1
  have h3 := (C5_unknown_method_405 (strL ("GET")) 0 []).2.2 (by decide)
  refine ⟨by decide, h1.1, ?_, by decide, h3⟩
  rw [h2]
  decide

/-! ## C6: url_decode inverts url_encode -/

set_option maxRecDepth 4096 in
/-- `std::stoi(.,16)` on the two uppercase hex digits that `url_encode`
    emitted recovers the byte value (checked for all 256 byte values). -/
lemma stoi16_hex_pair : ∀ b, b < 256 →
    stoi16 [hexUpper (b / 16), hexUpper (b % 16)] = some ((b : Int)) := by decide

/-- The defining equation of `url_encode` on a cons cell. -/
lemma url_encode_cons (b : Nat) (s : List Nat) :
    url_encode (b :: s)
      = (if isUnreserved b then [b] else [37, hexUpper (b / 16), hexUpper (b % 16)])
          ++ url_encode s := rfl

lemma url_decode_cons_plain (b : Nat) (l : List Nat) (hb : b ≠ 37) :
    url_decode (b :: l) = (url_decode l).map (fun d => b :: d) := by
  rw [url_decode.eq_def]
  split
  · simp_all
  · rename_i heq
    rw [List.cons.injEq] at heq
    exact absurd heq.1 hb
  · rename_i heq
    rw [List.cons.injEq] at heq
    exact absurd heq.1 hb
  · rename_i heq
    rw [List.cons.injEq] at heq
    rw [heq.1, heq.2]

lemma isUnreserved_ne_37 (b : Nat) (h : isUnreserved b = true) : b ≠ 37 := by
  intro hc
  rw [hc] at h
  exact absurd h (by decide)

/-- C6: URL-encode followed by URL-decode is the identity on every byte
    string: `url_encode` passes unreserved bytes through and emits every
    other byte as `%HH` with uppercase hex, and `url_decode` maps each
    such `%HH` back to the original byte (and no exception is raised). -/
theorem C6_url_roundtrip (s : List Nat) (h : ∀ b ∈ s, b < 256) :
    url_decode (url_encode s) = some s := by
  induction s with
  | nil => rfl
  | cons b s ih =>
    have hb : b < 256 := h b (List.mem_cons_self b s)
    have hs : ∀ x ∈ s, x < 256 := fun x hx => h x (List.mem_cons_of_mem b hx)
    by_cases hu : isUnreserved b = true
    · have henc : url_encode (b :: s) = b :: url_encode s := by
        rw [url_encode_cons, if_pos hu, List.singleton_append]
      rw [henc, url_decode_cons_plain b _ (isUnreserved_ne_37 b hu), ih hs]
      rfl
    · have hu' : isUnreserved b = false := by
        cases hx : isUnreserved b
        · rfl
        · exact absurd hx hu
      have henc : url_encode (b :: s)
          = 37 :: hexUpper (b / 16) :: hexUpper (b % 16) :: url_encode s := by
        rw [url_encode_cons, hu']
        rfl
      rw [henc]
      have hdec : url_decode (37 :: hexUpper (b / 16) :: hexUpper (b % 16) :: url_encode s)
          = match stoi16 [hexUpper (b / 16), hexUpper (b % 16)] with
            | none => none
            | some v => (url_decode (url_encode s)).map (fun d => (v.emod 256).toNat :: d) := by
        rw [url_decode.eq_def]
      rw [hdec, stoi16_hex_pair b hb, ih hs]
      have hmod : ((b : Int).emod 256).toNat = b := by
        show ((b : Int) % 256).toNat = b
        omega
      simp [hmod]

/-- C6 witness: a concrete byte string containing an unreserved byte, a
    space, a slash and a non-ASCII byte round-trips. -/
theorem C6_url_roundtrip_witness :
    (∀ b ∈ [104, 105, 32, 255, 47], b < 256) ∧
    url_decode (url_encode [104, 105, 32, 255, 47]) = some [104, 105, 32, 255, 47] :=
  ⟨by decide, C6_url_roundtrip [104, 105, 32, 255, 47] (by decide)⟩

/-! ## Routing proofs -/

lemma handledIds_append (a b : List REvent) :
    handledIds (a ++ b) = handledIds a ++ handledIds b := by
  simp [handledIds, List.filterMap_append]

lemma writesOf_append (a b : List REvent) :
    writesOf (a ++ b) = writesOf a ++ writesOf b := by
  simp [writesOf, List.filterMap_append]

lemma find?_append_left {α : Type} (p : α → Bool) (l1 l2 : List α) (a : α)
    (h : l1.find? p = some a) : (l1 ++ l2).find? p = some a := by
  induction l1 with
  | nil => cases h
  | cons c t ih =>
    cases hc : p c with
    | true =>
      rw [List.find?_cons_of_pos _ hc] at h
      rw [List.cons_append, List.find?_cons_of_pos _ hc]
      exact h
    | false =>
      rw [List.find?_cons_of_neg _ (by simp [hc])] at h
      rw [List.cons_append, List.find?_cons_of_neg _ (by simp [hc])]
      exact ih h

lemma find?_append_none {α : Type} (p : α → Bool) (l1 l2 : List α)
    (h : l1.find? p = none) : (l1 ++ l2).find? p = l2.find? p := by
  induction l1 with
  | nil => rfl
  | cons c t ih =>
    cases hc : p c with
    | true => rw [List.find?_cons_of_pos _ hc] at h; cases h
    | false =>
      rw [List.find?_cons_of_neg _ (by simp [hc])] at h
      rw [List.cons_append, List.find?_cons_of_neg _ (by simp [hc])]
      exact ih h

lemma getLast?_append_right {α : Type} (l1 l2 : List α) (a : α)
    (h : l2.getLast? = some a) : (l1 ++ l2).getLast? = some a := by
  induction l1 with
  | nil => exact h
  | cons c t ih =>
    have hne : t ++ l2 ≠ [] := by
      intro hc
      rcases List.append_eq_nil.mp hc with ⟨_, h2⟩
      rw [h2] at h
      cases h
    rw [List.cons_append]
    cases hx : t ++ l2 with
    | nil => exact absurd hx hne
    | cons y ys =>
      rw [List.getLast?_cons_cons]
      rw [hx] at ih
      exact ih

lemma middlewareResult_continue (mids : List Code)
    (h : ∀ c ∈ mids, c = Code.CONTINUE) : middlewareResult mids = Code.CONTINUE := by
  induction mids with
  | nil => rfl
  | cons c rest ih =>
    have hc : c = Code.CONTINUE := h c (List.mem_cons_self c rest)
    subst hc
    exact ih (fun x hx => h x (List.mem_cons_of_mem _ hx))

/-- Inversion of `web_route::match`: the returned flag is `matchesB`, no
    `handle_request` event is produced, and a `set_path_params` event is
    produced exactly when the path matched (in particular whenever the
    route matched). -/
lemma routeMatch_inv (r : Route) (req : WebRequest) (isM : Bool) (evs0 : List REvent)
    (hm : routeMatch r req = some (isM, evs0)) :
    matchesB req r = isM ∧ handledIds evs0 = [] ∧
    (evs0 = [] ∨ evs0 = [REvent.wrote r.rid (capturesOf r req)]) ∧
    (isM = true → evs0 = [REvent.wrote r.rid (capturesOf r req)]) := by
  unfold routeMatch at hm
  cases hmp : match_path r.expr req.path with
  | none => rw [hmp] at hm; cases hm
  | some q =>
    obtain ⟨matched, params⟩ := q
    rw [hmp] at hm
    simp only [Option.some.injEq, Prod.mk.injEq] at hm
    obtain ⟨h1, h2⟩ := hm
    have hcap : capturesOf r req = params := by unfold capturesOf; rw [hmp]
    cases matched with
    | true =>
      rw [if_pos rfl] at h2
      refine ⟨?_, ?_, ?_, ?_⟩
      · unfold matchesB
        rw [hmp]
        rw [← h1]
        simp
      · rw [← h2]; rfl
      · right; rw [← h2, hcap]
      · intro _; rw [← h2, hcap]
    | false =>
      rw [if_neg (by simp)] at h2
      have hf : isM = false := by rw [← h1]; simp
      refine ⟨?_, ?_, ?_, ?_⟩
      · unfold matchesB
        rw [hmp, hf]
      · rw [← h2]; rfl
      · left; rw [← h2]
      · intro hc; rw [hc] at hf; cases hf

/-- The route loop of the router: the routes whose `handle_request` runs
    are exactly the first route (if any) whose `match` returns true, and
    the loop reports handled iff such a route exists. -/
lemma routeLoop_spec (routes : List Route) (req : WebRequest) (evs : List REvent) (b : Bool)
    (hd : routeLoop routes req = some (evs, b)) :
    handledIds evs = (routes.find? (matchesB req)).toList.map Route.rid ∧
    b = (routes.find? (matchesB req)).isSome := by
  induction routes generalizing evs b with
  | nil =>
    simp only [routeLoop, Option.some.injEq, Prod.mk.injEq] at hd
    obtain ⟨h1, h2⟩ := hd
    rw [← h1, ← h2]
    exact ⟨rfl, rfl⟩
  | cons r rest ih =>
    simp only [routeLoop] at hd
    cases hm : routeMatch r req with
    | none => rw [hm] at hd; cases hd
    | some pr =>
      obtain ⟨isM, evs0⟩ := pr
      rw [hm] at hd
      simp only [] at hd
      obtain ⟨hmb, hh0, _, _⟩ := routeMatch_inv r req isM evs0 hm
      by_cases hIsM : isM = true
      · rw [if_pos hIsM] at hd
        simp only [Option.some.injEq, Prod.mk.injEq] at hd
        obtain ⟨h1, h2⟩ := hd
        rw [List.find?_cons_of_pos _ (by rw [hmb, hIsM])]
        rw [← h1, ← h2, handledIds_append, hh0]
        constructor
        · rfl
        · rfl
      · have hIsM' : isM = false := by
          cases hx : isM
          · rfl
          · exact absurd hx hIsM
        rw [if_neg hIsM] at hd
        cases hrl : routeLoop rest req with
        | none => rw [hrl] at hd; cases hd
        | some pr2 =>
          obtain ⟨evs2, b2⟩ := pr2
          rw [hrl] at hd
          simp only [] at hd
          simp only [Option.some.injEq, Prod.mk.injEq] at hd
          obtain ⟨h1, h2⟩ := hd
          obtain ⟨ih1, ih2⟩ := ih evs2 b2 hrl
          rw [List.find?_cons_of_neg _ (by rw [hmb, hIsM']; simp)]
          rw [← h1, ← h2, handledIds_append, hh0, List.nil_append]
          exact ⟨ih1, ih2⟩

/-- The server's router loop (all middleware returning CONTINUE): the
    routes handled are exactly the first matching route across the
    concatenated registration order. -/
lemma serverDispatch_spec (routers : List Router) (req : WebRequest)
    (evs : List REvent) (b : Bool)
    (hmids : ∀ rt ∈ routers, ∀ c ∈ rt.mids, c = Code.CONTINUE)
    (hd : serverDispatch routers req = some (evs, b)) :
    handledIds evs
      = (((routers.map Router.routes).flatten).find? (matchesB req)).toList.map Route.rid ∧
    b = (((routers.map Router.routes).flatten).find? (matchesB req)).isSome := by
  induction routers generalizing evs b with
  | nil =>
    simp only [serverDispatch, Option.some.injEq, Prod.mk.injEq] at hd
    obtain ⟨h1, h2⟩ := hd
    rw [← h1, ← h2]
    exact ⟨rfl, rfl⟩
  | cons rt rest ih =>
    have hmid : middlewareResult rt.mids = Code.CONTINUE :=
      middlewareResult_continue rt.mids (hmids rt (List.mem_cons_self rt rest))
    simp only [serverDispatch, routerHandle, hmid] at hd
    cases hrl : routeLoop rt.routes req with
    | none => rw [hrl] at hd; cases hd
    | some pr =>
      obtain ⟨evs1, b1⟩ := pr
      rw [hrl] at hd
      obtain ⟨hs1, hs2⟩ := routeLoop_spec rt.routes req evs1 b1 hrl
      have hflat : ((rt :: rest).map Router.routes).flatten
          = rt.routes ++ ((rest.map Router.routes).flatten) := by
        simp
      by_cases hb1 : b1 = true
      · rw [hb1] at hd
        simp only [] at hd
        simp only [Option.some.injEq, Prod.mk.injEq] at hd
        obtain ⟨h1, h2⟩ := hd
        rw [hb1] at hs2
        have hsome : (rt.routes.find? (matchesB req)).isSome = true := hs2.symm
        obtain ⟨r1, hr1⟩ := Option.isSome_iff_exists.mp hsome
        rw [hflat, find?_append_left _ _ _ _ hr1]
        rw [hr1] at hs1
        rw [← h1, ← h2]
        exact ⟨hs1, rfl⟩
      · have hb1' : b1 = false := by
          cases hx : b1
          · rfl
          · exact absurd hx hb1
        rw [hb1'] at hd
        simp only [] at hd
        rw [hb1'] at hs2
        have hnone : rt.routes.find? (matchesB req) = none := by
          cases hx : rt.routes.find? (matchesB req) with
          | none => rfl
          | some z => rw [hx] at hs2; cases hs2
        cases hsr : serverDispatch rest req with
        | none => rw [hsr] at hd; cases hd
        | some pr2 =>
          obtain ⟨evs2, b2⟩ := pr2
          rw [hsr] at hd
          simp only [] at hd
          simp only [Option.some.injEq, Prod.mk.injEq] at hd
          obtain ⟨h1, h2⟩ := hd
          obtain ⟨ih1, ih2⟩ :=
            ih evs2 b2 (fun x hx => hmids x (List.mem_cons_of_mem _ hx)) hsr
          rw [hflat, find?_append_none _ _ _ hnone]
          rw [hnone] at hs1
          have hs1' : handledIds evs1 = [] := by rw [hs1]; rfl
          rw [← h1, ← h2, handledIds_append, hs1', List.nil_append]
          exact ⟨ih1, ih2⟩

/-- C2: when every middleware returns CONTINUE, at most one route's
    `handle_request` is invoked during dispatch, and it is the first
    route — routers in server registration order, routes in router
    registration order — whose `match` returns true; routes after that
    first match are not handled. -/
theorem C2_first_match_wins (routers : List Router) (req : WebRequest)
    (evs : List REvent) (b : Bool)
    (hmids : ∀ rt ∈ routers, ∀ c ∈ rt.mids, c = Code.CONTINUE)
    (hd : serverDispatch routers req = some (evs, b)) :
    handledIds evs
      = (((routers.map Router.routes).flatten).find? (matchesB req)).toList.map Route.rid ∧
    (handledIds evs).length ≤ 1 := by
  obtain ⟨h1, _⟩ := serverDispatch_spec routers req evs b hmids hd
  refine ⟨h1, ?_⟩
  rw [h1]
  cases ((routers.map Router.routes).flatten).find? (matchesB req) <;> simp

/-- C2 witness: two routes both matching `GET /a`; only the first is
    handled. -/
theorem C2_first_match_wins_witness :
    handledIds [REvent.wrote 0 [], REvent.handled 0]
      = (((([⟨[], [⟨0, strL ("GET"), strL ("/a")⟩, ⟨1, strL ("GET"), strL ("/a")⟩]⟩] :
            List Router).map Router.routes).flatten).find?
          (matchesB ⟨strL ("GET"), strL ("/a")⟩)).toList.map Route.rid ∧
    (handledIds [REvent.wrote 0 [], REvent.handled 0]).length ≤ 1 :=
  C2_first_match_wins
    [⟨[], [⟨0, strL ("GET"), strL ("/a")⟩, ⟨1, strL ("GET"), strL ("/a")⟩]⟩]
    ⟨strL ("GET"), strL ("/a")⟩
    [REvent.wrote 0 [], REvent.handled 0] true (by decide) (by decide)

lemma routeLoop_last_write (routes : List Route) (req : WebRequest)
    (evs : List REvent) (r : Route)
    (hd : routeLoop routes req = some (evs, true))
    (hf : routes.find? (matchesB req) = some r) :
    (writesOf evs).getLast? = some (r.rid, capturesOf r req) := by
  induction routes generalizing evs with
  | nil => cases hf
  | cons r0 rest ih =>
    simp only [routeLoop] at hd
    cases hm : routeMatch r0 req with
    | none => rw [hm] at hd; cases hd
    | some pr =>
      obtain ⟨isM, evs0⟩ := pr
      rw [hm] at hd
      simp only [] at hd
      obtain ⟨hmb, _, _, hwT⟩ := routeMatch_inv r0 req isM evs0 hm
      by_cases hIsM : isM = true
      · rw [if_pos hIsM] at hd
        simp only [Option.some.injEq, Prod.mk.injEq] at hd
        obtain ⟨h1, _⟩ := hd
        rw [List.find?_cons_of_pos _ (by rw [hmb, hIsM])] at hf
        have hr : r = r0 := by
          injection hf with hf
          exact hf.symm
        rw [← h1, hwT hIsM, hr]
        rfl
      · have hIsM' : isM = false := by
          cases hx : isM
          · rfl
          · exact absurd hx hIsM
        rw [if_neg hIsM] at hd
        rw [List.find?_cons_of_neg _ (by rw [hmb, hIsM']; simp)] at hf
        cases hrl : routeLoop rest req with
        | none => rw [hrl] at hd; cases hd
        | some pr2 =>
          obtain ⟨evs2, b2⟩ := pr2
          rw [hrl] at hd
          simp only [] at hd
          simp only [Option.some.injEq, Prod.mk.injEq] at hd
          obtain ⟨h1, h2⟩ := hd
          rw [h2] at hrl
          have ihl := ih evs2 hrl hf
          rw [← h1, writesOf_append]
          exact getLast?_append_right _ _ _ ihl

/-- C9 (amended): `set_path_params` is invoked by every examined route
    whose path pattern matches the request path — also when the route's
    method differs and its `match` therefore returns false — and the
    *last* such write is performed by the first route whose `match`
    returned true, so the path parameters the handler finally sees are
    that route's captures. -/
theorem C9_last_write_is_first_match (routers : List Router) (req : WebRequest)
    (evs : List REvent) (b : Bool) (r : Route)
    (hmids : ∀ rt ∈ routers, ∀ c ∈ rt.mids, c = Code.CONTINUE)
    (hd : serverDispatch routers req = some (evs, b))
    (hf : ((routers.map Router.routes).flatten).find? (matchesB req) = some r) :
    (writesOf evs).getLast? = some (r.rid, capturesOf r req) := by
  induction routers generalizing evs b with
  | nil => cases hf
  | cons rt rest ih =>
    have hmid : middlewareResult rt.mids = Code.CONTINUE :=
      middlewareResult_continue rt.mids (hmids rt (List.mem_cons_self rt rest))
    simp only [serverDispatch, routerHandle, hmid] at hd
    have hflat : ((rt :: rest).map Router.routes).flatten
        = rt.routes ++ ((rest.map Router.routes).flatten) := by
      simp
    rw [hflat] at hf
    cases hrl : routeLoop rt.routes req with
    | none => rw [hrl] at hd; cases hd
    | some pr =>
      obtain ⟨evs1, b1⟩ := pr
      rw [hrl] at hd
      obtain ⟨_, hs2⟩ := routeLoop_spec rt.routes req evs1 b1 hrl
      by_cases hb1 : b1 = true
      · rw [hb1] at hd
        simp only [] at hd
        simp only [Option.some.injEq, Prod.mk.injEq] at hd
        obtain ⟨h1, _⟩ := hd
        rw [hb1] at hs2
        obtain ⟨r1, hr1⟩ := Option.isSome_iff_exists.mp hs2.symm
        rw [find?_append_left _ _ _ _ hr1] at hf
        have hr : r1 = r := by injection hf
        rw [hb1] at hrl
        rw [← h1]
        exact routeLoop_last_write rt.routes req evs1 r hrl (hr ▸ hr1)
      · have hb1' : b1 = false := by
          cases hx : b1
          · rfl
          · exact absurd hx hb1
        rw [hb1'] at hd
        simp only [] at hd
        rw [hb1'] at hs2
        have hnone : rt.routes.find? (matchesB req) = none := by
          cases hx : rt.routes.find? (matchesB req) with
          | none => rfl
          | some z => rw [hx] at hs2; cases hs2
        rw [find?_append_none _ _ _ hnone] at hf
        cases hsr : serverDispatch rest req with
        | none => rw [hsr] at hd; cases hd
        | some pr2 =>
          obtain ⟨evs2, b2⟩ := pr2
          rw [hsr] at hd
          simp only [] at hd
          simp only [Option.some.injEq, Prod.mk.injEq] at hd
          obtain ⟨h1, _⟩ := hd
          have ihl := ih evs2 b2 (fun x hx => hmids x (List.mem_cons_of_mem _ hx)) hsr hf
          rw [← h1, writesOf_append]
          exact getLast?_append_right _ _ _ ihl

/-- C9 counterexample: a POST route whose pattern matches the path also
    calls `set_path_params` before the GET route that actually matches
    — two writes for one dispatch, the first by a route whose `match`
    returned false. -/
theorem C9_counterexample :
    serverDispatch
        [⟨[], [⟨0, strL ("POST"), strL ("a/:x")⟩, ⟨1, strL ("GET"), strL ("a/:y")⟩]⟩]
        ⟨strL ("GET"), strL ("a/7")⟩
      = some ([REvent.wrote 0 [(strL ("x"), strL ("7"))],
               REvent.wrote 1 [(strL ("y"), strL ("7"))],
               REvent.handled 1], true) ∧
    (writesOf [REvent.wrote 0 [(strL ("x"), strL ("7"))],
               REvent.wrote 1 [(strL ("y"), strL ("7"))],
               REvent.handled 1]).length = 2 ∧
    handledIds [REvent.wrote 0 [(strL ("x"), strL ("7"))],
                REvent.wrote 1 [(strL ("y"), strL ("7"))],
                REvent.handled 1] = [1] ∧
    matchesB ⟨strL ("GET"), strL ("a/7")⟩ ⟨0, strL ("POST"), strL ("a/:x")⟩ = false := by
  decide

/-- C9 witness: in the same scenario the last write is the one performed
    by the first (and only) matching route. -/
theorem C9_last_write_is_first_match_witness :
    (writesOf [REvent.wrote 0 [(strL ("x"), strL ("7"))],
               REvent.wrote 1 [(strL ("y"), strL ("7"))],
               REvent.handled 1]).getLast?
      = some ((⟨1, strL ("GET"), strL ("a/:y")⟩ : Route).rid,
              capturesOf ⟨1, strL ("GET"), strL ("a/:y")⟩ ⟨strL ("GET"), strL ("a/7")⟩) :=
  C9_last_write_is_first_match
    [⟨[], [⟨0, strL ("POST"), strL ("a/:x")⟩, ⟨1, strL ("GET"), strL ("a/:y")⟩]⟩]
    ⟨strL ("GET"), strL ("a/7")⟩
    [REvent.wrote 0 [(strL ("x"), strL ("7"))],
     REvent.wrote 1 [(strL ("y"), strL ("7"))],
     REvent.handled 1] true
    ⟨1, strL ("GET"), strL ("a/:y")⟩
    (by decide) (by decide) (by decide)

/-! ## C7: named-parameter segments -/

/-- C7 counterexample: in `match_path("a/:id/b", "a//b")` the `:id`
    segment successfully matches the *empty* concrete segment between the
    two consecutive slashes, producing the capture `("id", "")` — a named
    parameter does not match only non-empty segments. -/
theorem C7_counterexample :
    match_path (strL ("a/:id/b")) (strL ("a//b"))
      = some (true, [(strL ("id"), [])]) ∧
    ([] : List Nat).length = 0 := by decide

/-- C7 (amended): an expression segment beginning with `:` matches any
    single concrete segment — including an empty one arising from
    consecutive slashes — and consumes exactly that one segment, the
    capture being the pair (segment text after the colon,
    `url_decode` of the concrete segment). -/
theorem C7_param_segment_step (es ps : List Nat) (etl ptl : List (List Nat))
    (acc : List (List Nat × List Nat)) (d : List Nat)
    (h1 : es.head? = some 58) (h2 : url_decode ps = some d) :
    matchSegs (es :: etl) (ps :: ptl) acc = matchSegs etl ptl (acc ++ [(es.tail, d)]) := by
  have hne : es ≠ [42] := by
    intro he
    rw [he] at h1
    exact absurd h1 (by decide)
  simp only [matchSegs]
  rw [if_neg hne, if_pos h1, h2]

/-- C7 witness: the step theorem applied to the segment `:id` against the
    concrete segment `7`. -/
theorem C7_param_segment_step_witness :
    (strL (":id")).head? = some 58 ∧
    url_decode (strL ("7")) = some (strL ("7")) ∧
    matchSegs [strL (":id")] [strL ("7")] []
      = matchSegs [] [] ([] ++ [((strL (":id")).tail, strL ("7"))]) :=
  ⟨by decide, by decide,
    C7_param_segment_step (strL (":id")) (strL ("7")) [] [] [] (strL ("7"))
      (by decide) (by decide)⟩

/-! ## C8: sanitize_path -/

lemma eraseFirstDots_length : ∀ (l l2 : List Nat),
    eraseFirstDots l = some l2 → l2.length + 2 = l.length := by
  intro l
  induction l with
  | nil => intro l2 h; cases h
  | cons c rest ih =>
    intro l2 h
    unfold eraseFirstDots at h
    by_cases hc : c = 46
    · rw [if_pos hc] at h
      cases rest with
      | nil => cases h
      | cons c2 rest2 =>
        simp only [] at h
        by_cases hc2 : c2 = 46
        · rw [if_pos hc2] at h
          injection h with h
          rw [← h]
          simp
        · rw [if_neg hc2] at h
          cases he : eraseFirstDots (c2 :: rest2) with
          | none => rw [he] at h; cases h
          | some l3 =>
            rw [he] at h
            simp only [Option.map_some', Option.some.injEq] at h
            have hl := ih l3 he
            rw [← h]
            simp only [List.length_cons] at hl ⊢
            omega
    · rw [if_neg hc] at h
      cases he : eraseFirstDots rest with
      | none => rw [he] at h; cases h
      | some l3 =>
        rw [he] at h
        simp only [Option.map_some', Option.some.injEq] at h
        have hl := ih l3 he
        rw [← h]
        simp only [List.length_cons] at hl ⊢
        omega

lemma eraseFirstDots_none : ∀ (l : List Nat),
    eraseFirstDots l = none → hasDots l = false := by
  intro l
  induction l with
  | nil => intro _; rfl
  | cons c rest ih =>
    intro h
    unfold eraseFirstDots at h
    by_cases hc : c = 46
    · rw [if_pos hc] at h
      cases rest with
      | nil => rfl
      | cons c2 rest2 =>
        simp only [] at h
        by_cases hc2 : c2 = 46
        · rw [if_pos hc2] at h; cases h
        · rw [if_neg hc2] at h
          have he : eraseFirstDots (c2 :: rest2) = none := by
            cases he2 : eraseFirstDots (c2 :: rest2) with
            | none => rfl
            | some l3 => rw [he2] at h; cases h
          have hrec := ih he
          simp only [hasDots, hrec, Bool.or_false]
          simp [hc2]
    · rw [if_neg hc] at h
      have he : eraseFirstDots rest = none := by
        cases he2 : eraseFirstDots rest with
        | none => rfl
        | some l3 => rw [he2] at h; cases h
      have hrec := ih he
      cases rest with
      | nil => rfl
      | cons c2 rest2 =>
        simp only [hasDots, hrec, Bool.or_false]
        simp [hc]

lemma sanitize_go_no_dots : ∀ (fuel : Nat) (l : List Nat),
    l.length ≤ 2 * fuel + 1 → hasDots (sanitize_go fuel l) = false := by
  intro fuel
  induction fuel with
  | zero =>
    intro l hl
    cases l with
    | nil => rfl
    | cons c rest =>
      cases rest with
      | nil => rfl
      | cons c2 rest2 => simp at hl
  | succ fuel ih =>
    intro l hl
    simp only [sanitize_go]
    cases he : eraseFirstDots l with
    | none => exact eraseFirstDots_none l he
    | some l2 =>
      apply ih
      have := eraseFirstDots_length l l2 he
      omega

/-- C8 (amended): for the request path "/../app.js" the `sanitize_path`
    result — the string `serve_static` appends to each static root for
    the filesystem lookup — is "//app.js" (the erase keeps both slashes),
    and for every input path the `sanitize_path` result contains no
    occurrence of the two-byte sequence ".." (46, 46). -/
theorem C8_sanitize_no_dotdot :
    sanitize_path (strL ("/../app.js")) = strL ("//app.js") ∧
    ∀ p : List Nat, hasDots (sanitize_path p) = false := by
  refine ⟨by decide, fun p => ?_⟩
  unfold sanitize_path
  exact sanitize_go_no_dots p.length p (by omega)

/-- C8 counterexample: `sanitize_path("/../app.js")` is "//app.js", not
    the "/app.js" the claim states (erasing the two dots leaves both
    surrounding slashes in place). -/
theorem C8_counterexample :
    sanitize_path (strL ("/../app.js")) = strL ("//app.js") ∧
    decide (strL ("//app.js") = strL ("/app.js")) = false := by decide

/-! ## C10: url_decode partiality -/

/-- C10: `url_decode` is not total: on "%zz" the two characters after the
    `%` reach `std::stoi` which finds no hex digit and throws
    (`std::invalid_argument`), modelled as `none`; and the exception
    propagates out of `match_path` when a named-parameter segment is
    matched against the concrete segment "%zz". -/
theorem C10_decode_exception :
    url_decode (strL ("%zz")) = none ∧
    match_path (strL (":x")) (strL ("%zz")) = none := by decide

end HamzaWeb
